import Mathlib

/-!
Verification of the core of the `tailwindcss-noise` plugin
(`src/node_modules/tailwindcss-noise/index.js`): a Box–Muller Gaussian
sampler (`randn_bm`), a 256×256 grayscale noise-pattern synthesizer
(`generateNoisePattern`), a keyed pattern cache (`NoisePatternCache`), and
the utility handler that parses `noise-[mean,dev,opacity]` values.

Modelling conventions:
* JavaScript numbers are IEEE-754 doubles, a subset of `ℚ`; parameter
  arithmetic is modelled exactly over `ℚ`.
* `Math.random()` is modelled as a stream `ℕ → ℚ` of uniform draws;
  the re-draw loops of `randn_bm` carry explicit fuel.  The per-pixel
  Gaussian samples consumed by the synthesizer are likewise modelled as a
  stream `ℕ → ℚ` of sampler outputs, with each synthesis call reading a
  fresh segment of the global stream (`freshSamples`).
* Storing a number into the `Uint8ClampedArray` of an `ImageData` follows
  the ECMAScript `ToUint8Clamp` conversion: clamp to `[0, 255]`, then round
  to the nearest integer with ties to the even integer (`toUint8Clamp`).
* `canvas.toDataURL()` (PNG, a lossless format) is modelled as the identity
  on the pixel buffer: byte-identity of encoded resources coincides with
  equality of pixel buffers.
-/

/-- JavaScript `Math.round`: round half toward positive infinity,
`⌊x + 1/2⌋`. -/
def jsRound (x : ℚ) : ℤ := ⌊x + 1/2⌋

/-- Round to the nearest integer, ties to even — the rounding used by the
ECMAScript `ToUint8Clamp` conversion for `Uint8ClampedArray` stores. -/
def roundTiesEven (x : ℚ) : ℤ :=
  if (⌊x⌋ : ℚ) + 1/2 < x then ⌊x⌋ + 1
  else if x < (⌊x⌋ : ℚ) + 1/2 then ⌊x⌋
  else if ⌊x⌋ % 2 = 0 then ⌊x⌋ else ⌊x⌋ + 1

/-- ECMAScript `ToUint8Clamp` (the conversion applied when assigning a
number to a `Uint8ClampedArray` element, e.g. `imageData.data`): clamp to
`[0, 255]`, then round to the nearest integer with ties to even. -/
def toUint8Clamp (x : ℚ) : ℤ :=
  if x ≤ 0 then 0
  else if 255 ≤ x then 255
  else roundTiesEven x

/-- One `while (u === 0) u = Math.random();` loop of `randn_bm` (index.js
lines 8–10): repeatedly draw from the uniform stream `rand`, starting at
position `i`, until a value different from `0` is obtained.  Returns the
drawn value together with the next unread stream position; `fuel` bounds
the number of draws (the JS loop terminates with probability 1). -/
def drawNonzero (rand : ℕ → ℚ) : ℕ → ℕ → Option (ℚ × ℕ)
  | _, 0 => none
  | i, fuel + 1 =>
    if rand i = 0 then drawNonzero rand (i + 1) fuel else some (rand i, i + 1)

/-- The two uniform draws `u`, `v` performed by `randn_bm` (index.js lines
8–10), threading the stream position. -/
def randn_bm_uv (rand : ℕ → ℚ) (i fuel : ℕ) : Option (ℚ × ℚ × ℕ) :=
  match drawNonzero rand i fuel with
  | none => none
  | some (u, j) =>
    match drawNonzero rand j fuel with
    | none => none
    | some (v, k) => some (u, v, k)

/-- The Box–Muller expression returned by `randn_bm` (index.js line 11):
`Math.sqrt(-2.0 * Math.log(u)) * Math.cos(2.0 * Math.PI * v)`. -/
noncomputable def boxMullerVal (u v : ℚ) : ℝ :=
  Real.sqrt (-2 * Real.log (u : ℝ)) * Real.cos (2 * Real.pi * (v : ℝ))

/-- `randn_bm` (index.js lines 7–12): draw `u` and `v` by re-drawing zeros,
then return the Box–Muller transform of the pair, together with the next
unread position of the uniform stream. -/
noncomputable def randn_bm (rand : ℕ → ℚ) (i fuel : ℕ) : Option (ℝ × ℕ) :=
  (randn_bm_uv rand i fuel).map fun t => (boxMullerVal t.1 t.2.1, t.2.2)

/-- `CANVAS_SIZE` (index.js line 23). -/
def CANVAS_SIZE : ℕ := 256

/-- One RGBA quadruple of the `ImageData` pixel buffer. -/
structure RGBA where
  r : ℤ
  g : ℤ
  b : ℤ
  a : ℤ

/-- The resource produced by one synthesis call: the 256×256 RGBA pixel
buffer, with `px p` the `p`-th pixel in row-major order (meaningful for
`p < width * height`).  The PNG data-URL encoding (`canvas.toDataURL`) is
lossless and is modelled as the identity, so equality of `NoiseImage`s is
byte-identity of the encoded resources. -/
structure NoiseImage where
  width : ℕ
  height : ℕ
  px : ℕ → RGBA

/-- `generateNoisePattern(mean, stdDev, opacity)` (index.js lines 21–45):
fill a `CANVAS_SIZE × CANVAS_SIZE` RGBA buffer where each pixel draws one
Gaussian sample `Z` (here `Z p` for pixel `p`), stores
`Math.min(255, Math.max(0, Math.floor(Z * stdDev + mean)))` into R, G and
B, and `255 * (opacity / 100)` into A, each through the
`Uint8ClampedArray` conversion. -/
def generateNoisePattern (Z : ℕ → ℚ) (mean stdDev opacity : ℚ) : NoiseImage :=
  { width := CANVAS_SIZE
    height := CANVAS_SIZE
    px := fun p =>
      let z := Z p
      let pixelValue : ℤ := min 255 (max 0 ⌊z * stdDev + mean⌋)
      { r := toUint8Clamp (pixelValue : ℚ)
        g := toUint8Clamp (pixelValue : ℚ)
        b := toUint8Clamp (pixelValue : ℚ)
        a := toUint8Clamp (255 * (opacity / 100)) } }

/-- The default arguments of `generateNoisePattern`'s signature
(index.js line 21): `mean = 128, stdDev = 20, opacity = 20`. -/
def generateNoisePatternDefaults : ℚ × ℚ × ℚ := (128, 20, 20)

/-- The segment of the global Gaussian-sample stream consumed by the
synthesis call with index `call`: each call reads `CANVAS_SIZE²` fresh
samples. -/
def freshSamples (Z : ℕ → ℚ) (call : ℕ) : ℕ → ℚ :=
  fun p => Z (call * (CANVAS_SIZE * CANVAS_SIZE) + p)

/-- The state of a `NoisePatternCache` (index.js lines 50–69): the `Map`
`this.patterns` as an insertion-ordered association list, plus
`synthCount`, an instrumentation counter recording how many times
`generateNoisePattern` has been invoked (used both to express
"the synthesizer runs at most once per key" and to hand each synthesis
call a fresh segment of the sample stream). -/
structure NoisePatternCache where
  patterns : List (String × NoiseImage)
  synthCount : ℕ

/-- `Map.prototype.has` / `Map.prototype.get` on `this.patterns`: find the
entry stored under `key`. -/
def findPattern (key : String) : List (String × NoiseImage) → Option NoiseImage
  | [] => none
  | (k, p) :: rest => if key = k then some p else findPattern key rest

/-- `NoisePatternCache.getKey` (index.js lines 55–57): the template literal
with each parameter passed through `Math.round`, joined by `-`. -/
def NoisePatternCache.getKey (mean stdDev opacity : ℚ) : String :=
  toString (jsRound mean) ++ "-" ++ toString (jsRound stdDev) ++ "-" ++
    toString (jsRound opacity)

/-- `NoisePatternCache.getPattern` (index.js lines 59–68): compute the
rounded key; if absent, synthesize with the original unrounded parameters
and store under the key; return the stored pattern.  `Z` is the global
Gaussian-sample stream. -/
def NoisePatternCache.getPattern (Z : ℕ → ℚ) (c : NoisePatternCache)
    (mean stdDev opacity : ℚ) : NoiseImage × NoisePatternCache :=
  let key := NoisePatternCache.getKey mean stdDev opacity
  match findPattern key c.patterns with
  | some p => (p, c)
  | none =>
    let pat := generateNoisePattern (freshSamples Z c.synthCount) mean stdDev opacity
    (pat, ⟨c.patterns ++ [(key, pat)], c.synthCount + 1⟩)

/-- A sequence of `getPattern` calls against one cache, returning the list
of patterns handed to the callers and the final cache state. -/
def runGetPatterns (Z : ℕ → ℚ) :
    NoisePatternCache → List (ℚ × ℚ × ℚ) → List NoiseImage × NoisePatternCache
  | c, [] => ([], c)
  | c, t :: rest =>
    let r := NoisePatternCache.getPattern Z c t.1 t.2.1 t.2.2
    let rr := runGetPatterns Z r.2 rest
    (r.1 :: rr.1, rr.2)

/-- `new NoisePatternCache()` (index.js lines 51–53): empty `Map`, no
synthesis performed yet. -/
def emptyCache : NoisePatternCache := ⟨[], 0⟩

/-- The public default parameter triple of the plugin wrapper
(index.js lines 84–86): `defaultMean = 128`, `defaultStdDev = 50`,
`defaultOpacity = 5`. -/
def pluginDefaults : ℚ × ℚ × ℚ := (128, 50, 5)

/-- Plugin initialization (index.js lines 82–88): a fresh cache and the
precomputed `defaultPattern = patternCache.getPattern(128, 50, 5)`.
Returns the default pattern and the cache state after computing it. -/
def pluginInit (Z : ℕ → ℚ) : NoiseImage × NoisePatternCache :=
  NoisePatternCache.getPattern Z emptyCache pluginDefaults.1 pluginDefaults.2.1
    pluginDefaults.2.2

/-- JavaScript `String.prototype.trim`, as applied to each split field
(index.js line 103): drop whitespace from both ends. -/
def jsTrim (s : String) : String :=
  String.mk (((s.data.dropWhile Char.isWhitespace).reverse.dropWhile
    Char.isWhitespace).reverse)

/-- JavaScript `value.split(',')` (index.js line 103): split on every
comma; adjacent commas and boundary commas yield empty fields. -/
def splitOnCommaAux : List Char → List Char → List String
  | [], acc => [String.mk acc.reverse]
  | c :: cs, acc =>
    if c = ',' then String.mk acc.reverse :: splitOnCommaAux cs []
    else splitOnCommaAux cs (c :: acc)

/-- JavaScript `value.split(',')` on a `String`. -/
def splitOnComma (s : String) : List String := splitOnCommaAux s.data []

/-- Numeric value of a digit prefix, `none` when there is no leading
digit (the `NaN` outcome of `parseInt`). -/
def leadingDigitsVal (cs : List Char) : Option ℕ :=
  match cs.takeWhile Char.isDigit with
  | [] => none
  | ds => some (ds.foldl (fun acc c => 10 * acc + (c.toNat - '0'.toNat)) 0)

/-- JavaScript `parseInt` with no radix argument, restricted to decimal
input (the `0x` hexadecimal prefix form is not modelled; no input of the
plugin's parsing path uses it): skip leading whitespace, read an optional
sign, then the longest digit prefix; `none` models the `NaN` result.
`parseInt(undefined)` is also `NaN`, modelled at the call site. -/
def parseIntJS (s : String) : Option ℤ :=
  match s.data.dropWhile Char.isWhitespace with
  | '-' :: rest => (leadingDigitsVal rest).map fun n => -(n : ℤ)
  | '+' :: rest => (leadingDigitsVal rest).map fun n => (n : ℤ)
  | cs => (leadingDigitsVal cs).map fun n => (n : ℤ)

/-- The `i`-th parsed field of the utility value (index.js lines 103–106):
split on commas, trim each field, then `parseInt` the `i`-th one.  A
missing field is `undefined`, and `parseInt(undefined)` is `NaN` (`none`). -/
def parsedField (value : String) (i : ℕ) : Option ℤ :=
  (((splitOnComma value).map jsTrim)[i]?).bind parseIntJS

/-- The three error kinds raised by the `noise` utility handler
(index.js lines 100–115): the three `throw new Error(...)` sites. -/
inductive NoiseError where
  | malformedParameterString
  | nonNumericParameter
  | opacityOutOfRange
deriving DecidableEq

/-- The validation and parsing performed by the `noise` utility handler
(index.js lines 99–113) before any synthesis: reject an empty value or one
with no comma, parse the first three trimmed fields with `parseInt`,
reject if any is `NaN`, reject an opacity outside `[0, 100]`; otherwise
yield the parsed integer triple. -/
def parseNoiseValue (value : String) : Except NoiseError (ℤ × ℤ × ℤ) :=
  if value = "" ∨ (value.data.contains ',') = false then
    .error .malformedParameterString
  else
    match parsedField value 0, parsedField value 1, parsedField value 2 with
    | some mean, some stdDev, some opacity =>
      if opacity < 0 ∨ 100 < opacity then .error .opacityOutOfRange
      else .ok (mean, stdDev, opacity)
    | _, _, _ => .error .nonNumericParameter

/-- The `noise` utility handler (index.js lines 98–127): on successful
parsing, serve the pattern from the cache; on any thrown error, catch it,
log a warning (not modelled) and serve the precomputed `defaultPattern`
with the cache untouched.  Returns the pattern embedded in the emitted
`background-image` plus the updated cache state. -/
def noiseUtilityHandler (Z : ℕ → ℚ) (defaultPattern : NoiseImage)
    (c : NoisePatternCache) (value : String) : NoiseImage × NoisePatternCache :=
  match parseNoiseValue value with
  | .ok (mean, stdDev, opacity) =>
    NoisePatternCache.getPattern Z c (mean : ℚ) (stdDev : ℚ) (opacity : ℚ)
  | .error _ => (defaultPattern, c)

/-- An all-zero Gaussian-sample stream, for concrete witnesses. -/
def zeroSamples : ℕ → ℚ := fun _ => 0

/-- A concrete uniform stream whose first draw is `0` (forcing one
re-draw) and whose later draws are `1/2`, for concrete witnesses. -/
def demoRand : ℕ → ℚ := fun n => if n = 0 then 0 else 1/2

/-- Helper for evaluating rational floors on concrete inputs. -/
theorem floor_rat_eval (x : ℚ) (n : ℤ) (h1 : (n : ℚ) ≤ x) (h2 : x < n + 1) :
    ⌊x⌋ = n := Int.floor_eq_iff.mpr ⟨h1, h2⟩

/-- Rounding with ties to even is the identity on integers. -/
theorem roundTiesEven_intCast (n : ℤ) : roundTiesEven (n : ℚ) = n := by
  simp only [roundTiesEven, Int.floor_intCast]
  rw [if_neg (by norm_num), if_pos (by norm_num)]

/-- The `Uint8ClampedArray` store is the identity on integers already in
`[0, 255]` (such as the clamped pixel luminance). -/
theorem toUint8Clamp_intCast (n : ℤ) (h0 : 0 ≤ n) (h255 : n ≤ 255) :
    toUint8Clamp (n : ℚ) = n := by
  rw [toUint8Clamp]
  by_cases hle : (n : ℚ) ≤ 0
  · have hn : n = 0 := le_antisymm (by exact_mod_cast hle) h0
    rw [if_pos hle, hn]
  · rw [if_neg hle]
    by_cases hge : (255 : ℚ) ≤ (n : ℚ)
    · have hn : n = 255 := le_antisymm h255 (by exact_mod_cast hge)
      rw [if_pos hge, hn]
    · rw [if_neg hge, roundTiesEven_intCast]

/-- On `[0, 255]` the `Uint8ClampedArray` store does not clamp: it is
exactly round-ties-to-even. -/
theorem toUint8Clamp_eq_roundTiesEven (x : ℚ) (h0 : 0 ≤ x) (h255 : x ≤ 255) :
    toUint8Clamp x = roundTiesEven x := by
  rw [toUint8Clamp]
  by_cases hle : x ≤ 0
  · have hx : x = 0 := le_antisymm hle h0
    subst hx
    rw [if_pos le_rfl, show (0:ℚ) = ((0:ℤ):ℚ) by norm_num, roundTiesEven_intCast]
  · rw [if_neg hle]
    by_cases hge : 255 ≤ x
    · have hx : x = 255 := le_antisymm h255 hge
      subst hx
      rw [if_pos le_rfl, show (255:ℚ) = ((255:ℤ):ℚ) by norm_num, roundTiesEven_intCast]
    · rw [if_neg hge]

/-- Appending a fresh entry under an absent key makes it findable. -/
theorem findPattern_append_self (k : String) (p : NoiseImage)
    (l : List (String × NoiseImage)) (h : findPattern k l = none) :
    findPattern k (l ++ [(k, p)]) = some p := by
  induction l with
  | nil => simp [findPattern]
  | cons e rest ih =>
    obtain ⟨k', q⟩ := e
    rw [List.cons_append, findPattern]
    rw [findPattern] at h
    by_cases hk : k = k'
    · rw [if_pos hk] at h
      exact absurd h (by simp)
    · rw [if_neg hk] at h ⊢
      exact ih h

/-- A `getPattern` call whose key is present returns the stored pattern
and leaves the cache untouched. -/
theorem getPattern_hit (Z : ℕ → ℚ) (c : NoisePatternCache)
    (mean stdDev opacity : ℚ) (P : NoiseImage)
    (h : findPattern (NoisePatternCache.getKey mean stdDev opacity) c.patterns = some P) :
    NoisePatternCache.getPattern Z c mean stdDev opacity = (P, c) := by
  simp only [NoisePatternCache.getPattern, h]

/-- A `getPattern` call whose key is absent synthesizes with the original
parameters, appends the entry under the key, and counts one synthesis. -/
theorem getPattern_miss (Z : ℕ → ℚ) (c : NoisePatternCache)
    (mean stdDev opacity : ℚ)
    (h : findPattern (NoisePatternCache.getKey mean stdDev opacity) c.patterns = none) :
    NoisePatternCache.getPattern Z c mean stdDev opacity =
      (generateNoisePattern (freshSamples Z c.synthCount) mean stdDev opacity,
        ⟨c.patterns ++ [(NoisePatternCache.getKey mean stdDev opacity,
          generateNoisePattern (freshSamples Z c.synthCount) mean stdDev opacity)],
          c.synthCount + 1⟩) := by
  simp only [NoisePatternCache.getPattern, h]

/-- While the key is cached, any run of same-key `getPattern` calls
returns the stored pattern to every caller and never changes the cache. -/
theorem runGetPatterns_all_hit (Z : ℕ → ℚ) (k : String) (P : NoiseImage) :
    ∀ (L : List (ℚ × ℚ × ℚ)) (c : NoisePatternCache),
      (∀ t ∈ L, NoisePatternCache.getKey t.1 t.2.1 t.2.2 = k) →
      findPattern k c.patterns = some P →
      runGetPatterns Z c L = (L.map fun _ => P, c) := by
  intro L
  induction L with
  | nil =>
    intro c _ _
    simp [runGetPatterns]
  | cons t rest ih =>
    intro c hkeys hfind
    have hk : NoisePatternCache.getKey t.1 t.2.1 t.2.2 = k :=
      hkeys t (List.mem_cons_self t rest)
    have hhit : findPattern (NoisePatternCache.getKey t.1 t.2.1 t.2.2) c.patterns = some P := by
      rw [hk]; exact hfind
    have hrest := ih c (fun t' ht' => hkeys t' (List.mem_cons_of_mem t ht')) hfind
    simp only [runGetPatterns, getPattern_hit Z c t.1 t.2.1 t.2.2 P hhit, hrest, List.map]

/-- A successful re-draw loop returns a nonzero value of the stream. -/
theorem drawNonzero_some (rand : ℕ → ℚ) :
    ∀ (fuel i : ℕ) (u : ℚ) (j : ℕ),
      drawNonzero rand i fuel = some (u, j) → ∃ m, u = rand m ∧ rand m ≠ 0 := by
  intro fuel
  induction fuel with
  | zero =>
    intro i u j h
    simp [drawNonzero] at h
  | succ n ih =>
    intro i u j h
    rw [drawNonzero] at h
    by_cases h0 : rand i = 0
    · rw [if_pos h0] at h
      exact ih (i + 1) u j h
    · rw [if_neg h0] at h
      have hu : rand i = u := congrArg Prod.fst (Option.some.inj h)
      exact ⟨i, hu.symm, h0⟩

/-- Each colour channel of a synthesized pixel stores the clamped floored
Gaussian luminance exactly. -/
theorem generateNoisePattern_channel (Z : ℕ → ℚ) (mean stdDev opacity : ℚ) (p : ℕ) :
    ((generateNoisePattern Z mean stdDev opacity).px p).r
        = min 255 (max 0 ⌊Z p * stdDev + mean⌋) ∧
    ((generateNoisePattern Z mean stdDev opacity).px p).g
        = min 255 (max 0 ⌊Z p * stdDev + mean⌋) ∧
    ((generateNoisePattern Z mean stdDev opacity).px p).b
        = min 255 (max 0 ⌊Z p * stdDev + mean⌋) := by
  have h0 : (0:ℤ) ≤ min 255 (max 0 ⌊Z p * stdDev + mean⌋) :=
    le_min (by norm_num) (le_max_left 0 _)
  have h255 : min 255 (max 0 ⌊Z p * stdDev + mean⌋) ≤ 255 := min_le_left _ _
  refine ⟨?_, ?_, ?_⟩ <;>
    · simp only [generateNoisePattern]
      exact toUint8Clamp_intCast _ h0 h255

/-- C8: the Gaussian sampler re-draws any uniform value landing on `0`, so
whenever `randn_bm` completes, both drawn values `u`, `v` lie in the open
interval `(0, 1)`, the logarithm is never applied to `0`, the square-root
argument `-2·ln u` is nonnegative, and the returned sample equals
`sqrt(-2·ln u) · cos(2·π·v)`. -/
theorem randn_bm_samples_in_open_interval (rand : ℕ → ℚ) (i fuel : ℕ)
    (u v : ℚ) (k : ℕ)
    (hr : ∀ n, 0 ≤ rand n ∧ rand n < 1)
    (h : randn_bm_uv rand i fuel = some (u, v, k)) :
    (0 < u ∧ u < 1) ∧ (0 < v ∧ v < 1) ∧ 0 ≤ -2 * Real.log (u : ℝ) ∧
      randn_bm rand i fuel =
        some (Real.sqrt (-2 * Real.log (u : ℝ)) * Real.cos (2 * Real.pi * (v : ℝ)), k) := by
  have hbounds : ∀ (w : ℚ), (∃ m, w = rand m ∧ rand m ≠ 0) → 0 < w ∧ w < 1 := by
    rintro w ⟨m, hw, hm⟩
    obtain ⟨hle, hlt⟩ := hr m
    subst hw
    exact ⟨lt_of_le_of_ne hle (Ne.symm hm), hlt⟩
  have h' := h
  rw [randn_bm_uv] at h'
  rcases e1 : drawNonzero rand i fuel with _ | ⟨u', j⟩
  · rw [e1] at h'
    exact absurd h' (by simp)
  · rw [e1] at h'
    dsimp only at h'
    rcases e2 : drawNonzero rand j fuel with _ | ⟨v', k'⟩
    · rw [e2] at h'
      exact absurd h' (by simp)
    · rw [e2] at h'
      simp only [Option.some.injEq, Prod.mk.injEq] at h'
      obtain ⟨hu, hv, hk⟩ := h'
      subst hu; subst hv; subst hk
      have hu01 : 0 < u' ∧ u' < 1 := hbounds u' (drawNonzero_some rand fuel i u' j e1)
      have hv01 : 0 < v' ∧ v' < 1 := hbounds v' (drawNonzero_some rand fuel j v' k' e2)
      have hlog : Real.log (u' : ℝ) < 0 :=
        Real.log_neg (by exact_mod_cast hu01.1) (by exact_mod_cast hu01.2)
      refine ⟨hu01, hv01, by linarith, ?_⟩
      rw [randn_bm, h]
      rfl

/-- Witness for the Gaussian-sampler claim: with a uniform stream whose
first draw is `0`, `randn_bm` re-draws and returns the Box–Muller value of
`u = v = 1/2`. -/
theorem randn_bm_samples_in_open_interval_witness :
    (∀ n, 0 ≤ demoRand n ∧ demoRand n < 1) ∧
      ((0 < (1/2 : ℚ) ∧ (1/2 : ℚ) < 1) ∧ (0 < (1/2 : ℚ) ∧ (1/2 : ℚ) < 1) ∧
        0 ≤ -2 * Real.log ((1/2 : ℚ) : ℝ) ∧
        randn_bm demoRand 0 3 =
          some (Real.sqrt (-2 * Real.log ((1/2 : ℚ) : ℝ)) *
            Real.cos (2 * Real.pi * ((1/2 : ℚ) : ℝ)), 3)) := by
  have hr : ∀ n, 0 ≤ demoRand n ∧ demoRand n < 1 := by
    intro n
    simp only [demoRand]
    split <;> norm_num
  exact ⟨hr, randn_bm_samples_in_open_interval demoRand 0 3 (1/2) (1/2) 3 hr
    (by norm_num [randn_bm_uv, drawNonzero, demoRand])⟩

/-- C2: every pixel of a synthesized pattern stores
`floor(Z·stdDev + mean)` clamped to `[0, 255]` in R, G and B; with
`stdDev = 0` and `mean = 300` every pixel saturates to `255`, and with
`stdDev = 0` and `mean = -50` every pixel saturates to `0`. -/
theorem pixel_luminance_clamped (Z : ℕ → ℚ) (mean stdDev opacity : ℚ)
    (p : ℕ) (hp : p < CANVAS_SIZE * CANVAS_SIZE) :
    (((generateNoisePattern Z mean stdDev opacity).px p).r
        = min 255 (max 0 ⌊Z p * stdDev + mean⌋) ∧
      ((generateNoisePattern Z mean stdDev opacity).px p).g
        = min 255 (max 0 ⌊Z p * stdDev + mean⌋) ∧
      ((generateNoisePattern Z mean stdDev opacity).px p).b
        = min 255 (max 0 ⌊Z p * stdDev + mean⌋)) ∧
    (((generateNoisePattern Z 300 0 opacity).px p).r = 255 ∧
      ((generateNoisePattern Z 300 0 opacity).px p).g = 255 ∧
      ((generateNoisePattern Z 300 0 opacity).px p).b = 255) ∧
    (((generateNoisePattern Z (-50) 0 opacity).px p).r = 0 ∧
      ((generateNoisePattern Z (-50) 0 opacity).px p).g = 0 ∧
      ((generateNoisePattern Z (-50) 0 opacity).px p).b = 0) := by
  have hhigh : min 255 (max 0 ⌊Z p * 0 + (300:ℚ)⌋) = 255 := by
    rw [mul_zero, zero_add,
      floor_rat_eval (300:ℚ) 300 (by norm_num) (by norm_num)]
    decide
  have hlow : min 255 (max 0 ⌊Z p * 0 + (-50:ℚ)⌋) = 0 := by
    rw [mul_zero, zero_add,
      floor_rat_eval (-50:ℚ) (-50) (by norm_num) (by norm_num)]
    decide
  obtain ⟨hr3, hg3, hb3⟩ := generateNoisePattern_channel Z 300 0 opacity p
  obtain ⟨hr5, hg5, hb5⟩ := generateNoisePattern_channel Z (-50) 0 opacity p
  exact ⟨generateNoisePattern_channel Z mean stdDev opacity p,
    ⟨hr3.trans hhigh, hg3.trans hhigh, hb3.trans hhigh⟩,
    ⟨hr5.trans hlow, hg5.trans hlow, hb5.trans hlow⟩⟩

/-- Witness for the pixel-luminance claim at pixel `0` of a pattern with
all-zero samples and parameters `(128, 50, 5)`. -/
theorem pixel_luminance_clamped_witness :
    0 < CANVAS_SIZE * CANVAS_SIZE ∧
    ((((generateNoisePattern zeroSamples 128 50 5).px 0).r
        = min 255 (max 0 ⌊zeroSamples 0 * 50 + 128⌋) ∧
      ((generateNoisePattern zeroSamples 128 50 5).px 0).g
        = min 255 (max 0 ⌊zeroSamples 0 * 50 + 128⌋) ∧
      ((generateNoisePattern zeroSamples 128 50 5).px 0).b
        = min 255 (max 0 ⌊zeroSamples 0 * 50 + 128⌋)) ∧
    (((generateNoisePattern zeroSamples 300 0 5).px 0).r = 255 ∧
      ((generateNoisePattern zeroSamples 300 0 5).px 0).g = 255 ∧
      ((generateNoisePattern zeroSamples 300 0 5).px 0).b = 255) ∧
    (((generateNoisePattern zeroSamples (-50) 0 5).px 0).r = 0 ∧
      ((generateNoisePattern zeroSamples (-50) 0 5).px 0).g = 0 ∧
      ((generateNoisePattern zeroSamples (-50) 0 5).px 0).b = 0)) :=
  ⟨by decide, pixel_luminance_clamped zeroSamples 128 50 5 0 (by decide)⟩

/-- C1 (amended): for opacity in `[0, 100]`, a `getPattern` request whose
key is not yet cached returns an image of exactly 256×256 pixels whose
alpha channel is uniform, equal on every pixel to `255·opacity/100`
rounded to the nearest integer with ties to even (the `Uint8ClampedArray`
store), which agrees with `round(255·opacity/100)` except at exact
half-integer ties. -/
theorem getPattern_size_and_uniform_alpha (Z : ℕ → ℚ) (c : NoisePatternCache)
    (mean stdDev opacity : ℚ) (h0 : 0 ≤ opacity) (h100 : opacity ≤ 100)
    (hmiss : findPattern (NoisePatternCache.getKey mean stdDev opacity) c.patterns = none) :
    (NoisePatternCache.getPattern Z c mean stdDev opacity).1.width = 256 ∧
    (NoisePatternCache.getPattern Z c mean stdDev opacity).1.height = 256 ∧
    ∀ p, ((NoisePatternCache.getPattern Z c mean stdDev opacity).1.px p).a
        = roundTiesEven (255 * (opacity / 100)) := by
  have ha0 : 0 ≤ 255 * (opacity / 100) :=
    mul_nonneg (by norm_num) (div_nonneg h0 (by norm_num))
  have ha255 : 255 * (opacity / 100) ≤ 255 := by
    have hq : opacity / 100 ≤ 1 := (div_le_one (by norm_num)).mpr h100
    calc 255 * (opacity / 100) ≤ 255 * 1 :=
          mul_le_mul_of_nonneg_left hq (by norm_num)
      _ = 255 := mul_one 255
  rw [getPattern_miss Z c mean stdDev opacity hmiss]
  refine ⟨rfl, rfl, ?_⟩
  intro p
  show toUint8Clamp (255 * (opacity / 100)) = roundTiesEven (255 * (opacity / 100))
  exact toUint8Clamp_eq_roundTiesEven _ ha0 ha255

/-- Witness for the amended size-and-alpha claim at `(128, 50, 100)` on an
empty cache: alpha is uniformly `roundTiesEven 255 = 255`. -/
theorem getPattern_size_and_uniform_alpha_witness :
    (0 ≤ (100:ℚ)) ∧ ((100:ℚ) ≤ 100) ∧
    ((NoisePatternCache.getPattern zeroSamples emptyCache 128 50 100).1.width = 256 ∧
      (NoisePatternCache.getPattern zeroSamples emptyCache 128 50 100).1.height = 256 ∧
      ∀ p, ((NoisePatternCache.getPattern zeroSamples emptyCache 128 50 100).1.px p).a
          = roundTiesEven (255 * ((100:ℚ) / 100))) :=
  ⟨by norm_num, by norm_num,
    getPattern_size_and_uniform_alpha zeroSamples emptyCache 128 50 100
      (by norm_num) (by norm_num) rfl⟩

/-- Counterexample to C1 as stated: at `opacity = 30` the stored alpha is
`76` (the exact value `76.5` is stored through the `Uint8ClampedArray`
conversion, which rounds ties to even), whereas `round(255·30/100) =
round(76.5) = 77`. -/
theorem alpha_rounding_counterexample :
    ((NoisePatternCache.getPattern zeroSamples emptyCache 128 50 30).1.px 0).a = 76 ∧
    round (255 * ((30:ℚ) / 100)) = 77 ∧
    ((NoisePatternCache.getPattern zeroSamples emptyCache 128 50 30).1.px 0).a ≠
      round (255 * ((30:ℚ) / 100)) := by
  have hmiss : findPattern (NoisePatternCache.getKey 128 50 30) emptyCache.patterns
      = none := rfl
  have h1 : ((NoisePatternCache.getPattern zeroSamples emptyCache 128 50 30).1.px 0).a
      = toUint8Clamp (255 * ((30:ℚ) / 100)) := by
    rw [getPattern_miss zeroSamples emptyCache 128 50 30 hmiss]
    rfl
  have hval : toUint8Clamp (255 * ((30:ℚ) / 100)) = 76 := by
    have hf : ⌊255 * ((30:ℚ) / 100)⌋ = 76 :=
      floor_rat_eval _ _ (by norm_num) (by norm_num)
    rw [toUint8Clamp, roundTiesEven, hf]
    norm_num
  have h2 : round (255 * ((30:ℚ) / 100)) = 77 := by
    rw [round_eq]
    exact floor_rat_eval _ _ (by norm_num) (by norm_num)
  refine ⟨h1.trans hval, h2, ?_⟩
  rw [h1.trans hval, h2]
  decide

/-- C3: starting from any cache state in which the key `k` is absent, any
nonempty sequence of `getPattern` calls whose parameter triples all round
to `k` triggers exactly one synthesis, grows the store by exactly one
entry, and hands every caller the identical stored resource. -/
theorem cache_synthesizes_once (Z : ℕ → ℚ) (c : NoisePatternCache) (k : String)
    (L : List (ℚ × ℚ × ℚ)) (hne : L ≠ [])
    (hkeys : ∀ t ∈ L, NoisePatternCache.getKey t.1 t.2.1 t.2.2 = k)
    (hmiss : findPattern k c.patterns = none) :
    (runGetPatterns Z c L).2.synthCount = c.synthCount + 1 ∧
    (runGetPatterns Z c L).2.patterns.length = c.patterns.length + 1 ∧
    ∃ P, findPattern k (runGetPatterns Z c L).2.patterns = some P ∧
      ∀ q ∈ (runGetPatterns Z c L).1, q = P := by
  cases L with
  | nil => exact absurd rfl hne
  | cons t rest =>
    have hk : NoisePatternCache.getKey t.1 t.2.1 t.2.2 = k :=
      hkeys t (List.mem_cons_self t rest)
    have hmiss' : findPattern (NoisePatternCache.getKey t.1 t.2.1 t.2.2) c.patterns
        = none := by rw [hk]; exact hmiss
    have hfirst := getPattern_miss Z c t.1 t.2.1 t.2.2 hmiss'
    rw [hk] at hfirst
    have hlook : findPattern k
        (c.patterns ++ [(k, generateNoisePattern (freshSamples Z c.synthCount)
          t.1 t.2.1 t.2.2)]) = some (generateNoisePattern (freshSamples Z c.synthCount)
            t.1 t.2.1 t.2.2) :=
      findPattern_append_self k _ c.patterns hmiss
    have hrest := runGetPatterns_all_hit Z k
      (generateNoisePattern (freshSamples Z c.synthCount) t.1 t.2.1 t.2.2) rest
      ⟨c.patterns ++ [(k, generateNoisePattern (freshSamples Z c.synthCount)
          t.1 t.2.1 t.2.2)], c.synthCount + 1⟩
      (fun t' ht' => hkeys t' (List.mem_cons_of_mem t ht')) hlook
    simp only [runGetPatterns, hfirst, hrest]
    refine ⟨?_, ?_, generateNoisePattern (freshSamples Z c.synthCount) t.1 t.2.1 t.2.2,
      hlook, ?_⟩
    · trivial
    · simp
    intro q hq
    rcases List.mem_cons.mp hq with h | h
    · exact h
    · obtain ⟨_, _, hh⟩ := List.mem_map.mp h
      exact hh.symm

/-- Witness for the single-synthesis claim: two consecutive
`getPattern(100, 20, 5)` calls on a fresh cache perform one synthesis,
add one entry, and return the same stored pattern to both callers. -/
theorem cache_synthesizes_once_witness :
    (([((100:ℚ), (20:ℚ), (5:ℚ)), (100, 20, 5)] : List (ℚ × ℚ × ℚ)) ≠ []) ∧
    ((runGetPatterns zeroSamples emptyCache [(100, 20, 5), (100, 20, 5)]).2.synthCount
        = emptyCache.synthCount + 1 ∧
      (runGetPatterns zeroSamples emptyCache [(100, 20, 5), (100, 20, 5)]).2.patterns.length
        = emptyCache.patterns.length + 1 ∧
      ∃ P, findPattern (NoisePatternCache.getKey 100 20 5)
          (runGetPatterns zeroSamples emptyCache [(100, 20, 5), (100, 20, 5)]).2.patterns
            = some P ∧
        ∀ q ∈ (runGetPatterns zeroSamples emptyCache [(100, 20, 5), (100, 20, 5)]).1,
          q = P) :=
  ⟨List.cons_ne_nil _ _,
    cache_synthesizes_once zeroSamples emptyCache (NoisePatternCache.getKey 100 20 5)
      [(100, 20, 5), (100, 20, 5)] (List.cons_ne_nil _ _)
      (by
        intro t ht
        rcases List.mem_cons.mp ht with h | h
        · subst h; rfl
        · rcases List.mem_cons.mp h with h | h
          · subst h; rfl
          · exact absurd h (List.not_mem_nil t))
      rfl⟩

/-- C4: the cache key is each parameter rounded with `Math.round`, joined
by the fixed delimiter `-` (so triples with equal roundings collide), and
a cache miss synthesizes with the original unrounded parameters while
storing the result under the rounded key. -/
theorem getKey_rounds_and_miss_uses_original (Z : ℕ → ℚ) (c : NoisePatternCache)
    (mean stdDev opacity : ℚ)
    (hmiss : findPattern (NoisePatternCache.getKey mean stdDev opacity) c.patterns = none) :
    NoisePatternCache.getKey mean stdDev opacity
        = toString (jsRound mean) ++ "-" ++ toString (jsRound stdDev) ++ "-"
          ++ toString (jsRound opacity) ∧
    (∀ m' s' o', jsRound m' = jsRound mean → jsRound s' = jsRound stdDev →
      jsRound o' = jsRound opacity →
      NoisePatternCache.getKey m' s' o' = NoisePatternCache.getKey mean stdDev opacity) ∧
    (NoisePatternCache.getPattern Z c mean stdDev opacity).1
        = generateNoisePattern (freshSamples Z c.synthCount) mean stdDev opacity ∧
    (NoisePatternCache.getPattern Z c mean stdDev opacity).2.patterns
        = c.patterns ++ [(NoisePatternCache.getKey mean stdDev opacity,
            generateNoisePattern (freshSamples Z c.synthCount) mean stdDev opacity)] := by
  rw [getPattern_miss Z c mean stdDev opacity hmiss]
  refine ⟨rfl, ?_, rfl, rfl⟩
  intro m' s' o' h1 h2 h3
  simp only [NoisePatternCache.getKey, h1, h2, h3]

/-- Witness for the key-rounding claim at the fractional request
`(100.4, 19.6, 5)` on an empty cache: the key is the rounded string
`"100-20-5"` while the synthesizer receives the unrounded parameters. -/
theorem getKey_rounds_and_miss_uses_original_witness :
    (findPattern (NoisePatternCache.getKey (502/5) (98/5) 5) emptyCache.patterns = none) ∧
    (NoisePatternCache.getKey ((502:ℚ)/5) ((98:ℚ)/5) 5
        = toString (jsRound ((502:ℚ)/5)) ++ "-" ++ toString (jsRound ((98:ℚ)/5)) ++ "-"
          ++ toString (jsRound (5:ℚ)) ∧
      (∀ m' s' o', jsRound m' = jsRound ((502:ℚ)/5) → jsRound s' = jsRound ((98:ℚ)/5) →
        jsRound o' = jsRound (5:ℚ) →
        NoisePatternCache.getKey m' s' o' = NoisePatternCache.getKey (502/5) (98/5) 5) ∧
      (NoisePatternCache.getPattern zeroSamples emptyCache (502/5) (98/5) 5).1
          = generateNoisePattern (freshSamples zeroSamples emptyCache.synthCount)
              (502/5) (98/5) 5 ∧
      (NoisePatternCache.getPattern zeroSamples emptyCache (502/5) (98/5) 5).2.patterns
          = emptyCache.patterns ++ [(NoisePatternCache.getKey (502/5) (98/5) 5,
              generateNoisePattern (freshSamples zeroSamples emptyCache.synthCount)
                (502/5) (98/5) 5)]) ∧
    NoisePatternCache.getKey ((502:ℚ)/5) ((98:ℚ)/5) 5 = "100-20-5" := by
  have r1 : jsRound ((502:ℚ)/5) = 100 := by
    rw [jsRound]; exact floor_rat_eval _ _ (by norm_num) (by norm_num)
  have r2 : jsRound ((98:ℚ)/5) = 20 := by
    rw [jsRound]; exact floor_rat_eval _ _ (by norm_num) (by norm_num)
  have r3 : jsRound ((5:ℚ)) = 5 := by
    rw [jsRound]; exact floor_rat_eval _ _ (by norm_num) (by norm_num)
  refine ⟨rfl, getKey_rounds_and_miss_uses_original zeroSamples emptyCache
    (502/5) (98/5) 5 rfl, ?_⟩
  rw [NoisePatternCache.getKey, r1, r2, r3]
  rfl

/-- C5: a request whose parsed opacity lies outside `[0, 100]` is rejected
with the opacity-out-of-range error before any synthesis work (the cache
is untouched), and the wrapper returns the precomputed default pattern —
synthesized from `(mean 128, stdDev 50, opacity 5)` — instead of
propagating the error. -/
theorem opacity_out_of_range_fallback (Z : ℕ → ℚ) (c : NoisePatternCache)
    (value : String) (mean stdDev opacity : ℤ)
    (hform : ¬ (value = "" ∨ (value.data.contains ',') = false))
    (h0 : parsedField value 0 = some mean)
    (h1 : parsedField value 1 = some stdDev)
    (h2 : parsedField value 2 = some opacity)
    (hrange : opacity < 0 ∨ 100 < opacity) :
    parseNoiseValue value = .error .opacityOutOfRange ∧
    noiseUtilityHandler Z (pluginInit Z).1 c value = ((pluginInit Z).1, c) ∧
    (pluginInit Z).1 = generateNoisePattern (freshSamples Z 0) 128 50 5 := by
  have hparse : parseNoiseValue value = .error .opacityOutOfRange := by
    simp only [parseNoiseValue, if_neg hform, h0, h1, h2]
    rw [if_pos hrange]
  refine ⟨hparse, ?_, rfl⟩
  simp only [noiseUtilityHandler, hparse]

/-- Witness for the opacity-validation claim at the request
`"128,50,150"` on an empty auxiliary cache. -/
theorem opacity_out_of_range_fallback_witness :
    (¬ (("128,50,150" : String) = "" ∨ (("128,50,150" : String).data.contains ',') = false)) ∧
    parsedField "128,50,150" 0 = some 128 ∧
    parsedField "128,50,150" 1 = some 50 ∧
    parsedField "128,50,150" 2 = some 150 ∧
    ((150:ℤ) < 0 ∨ 100 < (150:ℤ)) ∧
    (parseNoiseValue "128,50,150" = .error .opacityOutOfRange ∧
      noiseUtilityHandler zeroSamples (pluginInit zeroSamples).1 emptyCache "128,50,150"
          = ((pluginInit zeroSamples).1, emptyCache) ∧
      (pluginInit zeroSamples).1 = generateNoisePattern (freshSamples zeroSamples 0) 128 50 5) :=
  ⟨by decide, rfl, rfl, rfl, Or.inr (by decide),
    opacity_out_of_range_fallback zeroSamples emptyCache "128,50,150" 128 50 150
      (by decide) rfl rfl rfl (Or.inr (by decide))⟩

/-- C6 (amended): an input value that is empty or has no comma delimiter
is detected at the request boundary before any synthesis work and reported
as the malformed-parameter-string error, the wrapper falling back to the
default pattern with the cache untouched.  A wrong field count is not
itself reported as this error: with fewer than three fields the missing
fields parse as non-numeric, and with more than three fields the extra
fields are ignored and parsing succeeds. -/
theorem malformed_value_fallback (Z : ℕ → ℚ) (c : NoisePatternCache) (value : String)
    (h : value = "" ∨ (value.data.contains ',') = false) :
    parseNoiseValue value = .error .malformedParameterString ∧
    noiseUtilityHandler Z (pluginInit Z).1 c value = ((pluginInit Z).1, c) := by
  have hparse : parseNoiseValue value = .error .malformedParameterString := by
    rw [parseNoiseValue, if_pos h]
  refine ⟨hparse, ?_⟩
  simp only [noiseUtilityHandler, hparse]

/-- Witness for the amended malformed-input claim at the comma-free value
`"abc"`. -/
theorem malformed_value_fallback_witness :
    (("abc" : String) = "" ∨ (("abc" : String).data.contains ',') = false) ∧
    (parseNoiseValue "abc" = .error .malformedParameterString ∧
      noiseUtilityHandler zeroSamples (pluginInit zeroSamples).1 emptyCache "abc"
          = ((pluginInit zeroSamples).1, emptyCache)) :=
  ⟨Or.inr (by decide),
    malformed_value_fallback zeroSamples emptyCache "abc" (Or.inr (by decide))⟩

/-- Counterexample to C6 as stated: the two-field input `"10,20"` (wrong
field count, delimiter present) is reported as the non-numeric-parameter
error, not as the malformed-parameter-string error, and the four-field
input `"1,2,3,4"` is not detected at all — it parses successfully with the
extra field ignored. -/
theorem field_count_counterexample :
    parseNoiseValue "1,2,3,4" = .ok (1, 2, 3) ∧
    parseNoiseValue "10,20" = .error .nonNumericParameter ∧
    parseNoiseValue "10,20" ≠ .error .malformedParameterString :=
  ⟨rfl, rfl, fun h => NoiseError.noConfusion (Except.error.inj (rfl.trans h))⟩

/-- C7: the preset string is split on commas, each field trimmed and
parsed with `parseInt`: `"128,50,5"` (with or without inner spaces) parses
to exactly `(128, 50, 5)`, and `"abc,50,5"` is rejected with the
non-numeric-parameter error. -/
theorem preset_parsing :
    parseNoiseValue "128,50,5" = .ok (128, 50, 5) ∧
    parseNoiseValue "128, 50, 5" = .ok (128, 50, 5) ∧
    parseNoiseValue "abc,50,5" = .error .nonNumericParameter :=
  ⟨rfl, rfl, rfl⟩

/-- C9: calling `getPattern` directly performs no opacity validation: an
out-of-range opacity (on a cache miss) still synthesizes and caches a
pattern rather than raising an error, the per-pixel alpha
`255·(opacity/100)` being saturated into `[0, 255]` only by the 8-bit
pixel buffer's clamping (`0` for negative opacity, `255` above 100). -/
theorem getPattern_no_opacity_validation (Z : ℕ → ℚ) (c : NoisePatternCache)
    (mean stdDev opacity : ℚ) (hrange : opacity < 0 ∨ 100 < opacity)
    (hmiss : findPattern (NoisePatternCache.getKey mean stdDev opacity) c.patterns = none) :
    (NoisePatternCache.getPattern Z c mean stdDev opacity).2.synthCount = c.synthCount + 1 ∧
    (NoisePatternCache.getPattern Z c mean stdDev opacity).2.patterns.length
        = c.patterns.length + 1 ∧
    (NoisePatternCache.getPattern Z c mean stdDev opacity).1
        = generateNoisePattern (freshSamples Z c.synthCount) mean stdDev opacity ∧
    ∀ p, ((NoisePatternCache.getPattern Z c mean stdDev opacity).1.px p).a
        = if opacity < 0 then 0 else 255 := by
  rw [getPattern_miss Z c mean stdDev opacity hmiss]
  refine ⟨rfl, by simp, rfl, ?_⟩
  intro p
  show toUint8Clamp (255 * (opacity / 100)) = if opacity < 0 then 0 else 255
  have hexp : 255 * (opacity / 100) = (51 / 20) * opacity := by ring
  rcases hrange with hlt | hgt
  · have hle : 255 * (opacity / 100) ≤ 0 := by
      rw [hexp]; linarith
    rw [if_pos hlt, toUint8Clamp, if_pos hle]
  · have hge : (255:ℚ) ≤ 255 * (opacity / 100) := by
      rw [hexp]; linarith
    have hpos : ¬ (255 * (opacity / 100) ≤ 0) := by
      rw [hexp]; intro hcon; linarith
    rw [if_neg (by linarith), toUint8Clamp, if_neg hpos, if_pos hge]

/-- Witness for the no-validation claim at `opacity = 150` on an empty
cache: the pattern is synthesized, cached, and its alpha saturates at
`255`. -/
theorem getPattern_no_opacity_validation_witness :
    (((150:ℚ) < 0 ∨ 100 < (150:ℚ))) ∧
    (findPattern (NoisePatternCache.getKey 128 50 150) emptyCache.patterns = none) ∧
    ((NoisePatternCache.getPattern zeroSamples emptyCache 128 50 150).2.synthCount
        = emptyCache.synthCount + 1 ∧
      (NoisePatternCache.getPattern zeroSamples emptyCache 128 50 150).2.patterns.length
        = emptyCache.patterns.length + 1 ∧
      (NoisePatternCache.getPattern zeroSamples emptyCache 128 50 150).1
        = generateNoisePattern (freshSamples zeroSamples emptyCache.synthCount) 128 50 150 ∧
      ∀ p, ((NoisePatternCache.getPattern zeroSamples emptyCache 128 50 150).1.px p).a
          = if (150:ℚ) < 0 then 0 else 255) :=
  ⟨Or.inr (by norm_num), rfl,
    getPattern_no_opacity_validation zeroSamples emptyCache 128 50 150
      (Or.inr (by norm_num)) rfl⟩

/-- C10: the synthesizer's own default arguments are
`(mean 128, stdDev 20, opacity 20)`, which differ from the public default
triple `(mean 128, stdDev 50, opacity 5)` that the plugin wrapper uses for
the base utility and the error fallback. -/
theorem synthesizer_vs_plugin_defaults :
    generateNoisePatternDefaults = (128, 20, 20) ∧
    pluginDefaults = (128, 50, 5) ∧
    generateNoisePatternDefaults ≠ pluginDefaults := by
  refine ⟨rfl, rfl, ?_⟩
  intro h
  have h2 : (20:ℚ) = 50 := congrArg (fun t => t.2.1) h
  norm_num at h2

